import Mathlib

/-!
Shallow embedding of the token lifecycle subsystem of kognic-auth-python:
the token validity rule and cache key (`internal/token_cache/_base.py`),
the file and keyring cache backends (`_file.py`, `_keyring.py`), the cache
factory (`token_cache/__init__.py`), the `RequestsAuthSession.session`
property (`requests/auth_session.py`), the 401-retry handler
(`requests/bearer_auth.py`) and the shared provider pool
(`requests/base_client.py`).

Time is modelled as an integer Unix timestamp.  Token dicts are modelled
by the fields the embedded code reads: the `access_token` string and the
optional `expires_at` timestamp; other fields are never inspected by the
code under study.
-/

/-- A token record, as read by the cache layer: `access_token` plus an
optional absolute `expires_at` timestamp (`token.get("expires_at")` may
be absent). -/
structure Token where
  access_token : String
  expires_at : Option Int
  deriving Repr, DecidableEq

/-- `EXPIRY_MARGIN_SECONDS` from `internal/token_cache/_base.py`. -/
def EXPIRY_MARGIN_SECONDS : Int := 30

/-- `make_key(auth_server, client_id)` from `_base.py`:
the f-string `f"{auth_server}:{client_id}"`. -/
def make_key (auth_server : String) (client_id : String) : String :=
  auth_server ++ ":" ++ client_id

/-- `is_valid(token)` from `_base.py`, with the current clock passed
explicitly: `expires_at` missing means invalid, otherwise
`time.time() < expires_at - EXPIRY_MARGIN_SECONDS`. -/
def is_valid (token : Token) (now : Int) : Bool :=
  match token.expires_at with
  | none => false
  | some expires_at => decide (now < expires_at - EXPIRY_MARGIN_SECONDS)

/-- Association-list update with Python-dict semantics: `d[k] = v`
replaces an existing binding, else appends. -/
def insertKV {α β : Type} [DecidableEq α] (k : α) (v : β) :
    List (α × β) → List (α × β)
  | [] => [(k, v)]
  | (k2, v2) :: rest =>
      if k2 = k then (k, v) :: rest else (k2, v2) :: insertKV k v rest

/-- Association-list deletion with Python-dict semantics: `del d[k]`. -/
def eraseKV {α β : Type} [DecidableEq α] (k : α) :
    List (α × β) → List (α × β)
  | [] => []
  | (k2, v2) :: rest =>
      if k2 = k then rest else (k2, v2) :: eraseKV k rest

/-- Association-list lookup, `d.get(k)`. -/
def lookupKV {α β : Type} [DecidableEq α] (k : α) :
    List (α × β) → Option β
  | [] => none
  | (k2, v2) :: rest => if k2 = k then some v2 else lookupKV k rest

theorem lookupKV_insert_self {α β : Type} [DecidableEq α]
    (k : α) (v : β) (l : List (α × β)) :
    lookupKV k (insertKV k v l) = some v := by
  induction l with
  | nil => simp [insertKV, lookupKV]
  | cons hd tl ih =>
      obtain ⟨k2, v2⟩ := hd
      by_cases h : k2 = k
      · simp [insertKV, lookupKV, h]
      · simp [insertKV, lookupKV, h, ih]

theorem lookupKV_insert_ne {α β : Type} [DecidableEq α]
    (k k2 : α) (v : β) (l : List (α × β)) (h : k2 ≠ k) :
    lookupKV k2 (insertKV k v l) = lookupKV k2 l := by
  have hne : ¬k = k2 := fun hc => h hc.symm
  induction l with
  | nil => simp [insertKV, lookupKV, hne]
  | cons hd tl ih =>
      obtain ⟨k3, v3⟩ := hd
      by_cases h3 : k3 = k
      · subst h3
        simp [insertKV, lookupKV, hne]
      · by_cases h4 : k3 = k2 <;> simp [insertKV, lookupKV, h3, h4, h, hne, ih]

/-! ## File cache backend (`_file.py`)

The on-disk file is modelled by `FileContent`: absent
(`FileNotFoundError`), unparsable (`json.loads` raises), or a parsed
top-level JSON object mapping keys to token records.  `readFails` models
`path.read_text()` raising something other than `FileNotFoundError`;
`writeFails` models `_save_all` raising (e.g. a permission error), which
the `save`/`clear` bodies catch. -/

inductive FileContent : Type where
  | absent : FileContent
  | corrupt : FileContent
  | data : List (String × Token) → FileContent
  deriving Repr, DecidableEq

structure FileStore where
  content : FileContent
  readFails : Bool
  writeFails : Bool
  deriving Repr, DecidableEq

/-- `FileTokenCache._load_all`: returns the parsed document, and `{}` on
`FileNotFoundError` or any other read or parse error. -/
def FileTokenCache.load_all (s : FileStore) : List (String × Token) :=
  if s.readFails then []
  else
    match s.content with
    | .absent => []
    | .corrupt => []
    | .data d => d

/-- `FileTokenCache.load`: key lookup in `_load_all()`, discarding a
missing or invalid (expired / no `expires_at`) record; any error inside
is caught and answered with `None`. -/
def FileTokenCache.load (s : FileStore) (auth_server client_id : String)
    (now : Int) : Option Token :=
  match lookupKV (make_key auth_server client_id) (FileTokenCache.load_all s) with
  | none => none
  | some token => if is_valid token now then some token else none

/-- `FileTokenCache.save`: read-modify-write of the whole document; a
failing write is caught, leaving the store unchanged. -/
def FileTokenCache.save (s : FileStore) (auth_server client_id : String)
    (token : Token) : FileStore :=
  if s.writeFails then s
  else
    { s with
      content :=
        .data (insertKV (make_key auth_server client_id) token
          (FileTokenCache.load_all s)) }

/-- `FileTokenCache.clear`: deletes the key and rewrites only when the
key is present in the loaded document; a failing write is caught. -/
def FileTokenCache.clear (s : FileStore) (auth_server client_id : String) :
    FileStore :=
  let key := make_key auth_server client_id
  let d := FileTokenCache.load_all s
  match lookupKV key d with
  | none => s
  | some _ =>
      if s.writeFails then s
      else { s with content := .data (eraseKV key d) }

/-! ## Keyring cache backend (`_keyring.py`)

The system keyring is modelled by `KrStore`: `usable` is the result of
the memoised `_keyring()` probe (keyring imported, `get_keyring()`
succeeded and the backend name passed the "fail" check); entries map
keys to stored strings that either parse as a token record or do not
(`StoredVal.corrupt`, on which `json.loads` or the subsequent dict
access raises).  `getFails` / `setFails` / `delFails` model the
corresponding keyring calls raising; every such raise is caught. -/

inductive StoredVal : Type where
  | corrupt : StoredVal
  | good : Token → StoredVal
  deriving Repr, DecidableEq

structure KrStore where
  usable : Bool
  entries : List (String × StoredVal)
  getFails : Bool
  setFails : Bool
  delFails : Bool
  deriving Repr, DecidableEq

/-- `KeyringTokenCache.load`: `None` when the keyring is unusable, the
read raises, the key is missing, the stored value does not parse, or the
token is invalid. -/
def KeyringTokenCache.load (s : KrStore) (auth_server client_id : String)
    (now : Int) : Option Token :=
  if !s.usable then none
  else if s.getFails then none
  else
    match lookupKV (make_key auth_server client_id) s.entries with
    | none => none
    | some .corrupt => none
    | some (.good token) => if is_valid token now then some token else none

/-- `KeyringTokenCache.save`: stores the serialised token; unusable
keyring or a raising `set_password` leaves the store unchanged. -/
def KeyringTokenCache.save (s : KrStore) (auth_server client_id : String)
    (token : Token) : KrStore :=
  if !s.usable then s
  else if s.setFails then s
  else
    { s with
      entries := insertKV (make_key auth_server client_id) (.good token)
        s.entries }

/-- `KeyringTokenCache.clear`: deletes the entry; unusable keyring or a
raising `delete_password` (which real keyrings also do on a missing key)
leaves the store unchanged. -/
def KeyringTokenCache.clear (s : KrStore) (auth_server client_id : String) :
    KrStore :=
  if !s.usable then s
  else if s.delFails then s
  else { s with entries := eraseKV (make_key auth_server client_id) s.entries }

/-! ## Cache factory (`token_cache/__init__.py`) -/

/-- Naive substring test: `pat in s` for Python strings. -/
def strContains (s pat : String) : Bool :=
  (List.range (s.data.length + 1)).any
    (fun i => decide ((s.data.drop i).take pat.data.length = pat.data))

/-- Outcome of the keyring probe inside `KeyringTokenCache._keyring`:
`none` when `import keyring` or `keyring.get_keyring()` raises, else the
backend type name `type(backend).__name__`. -/
def keyringUsable (probe : Option String) : Bool :=
  match probe with
  | none => false
  | some backendName => !strContains backendName.toLower "fail"

/-- The three cache backends `make_cache` can choose between. -/
inductive CacheChoice : Type where
  | file : CacheChoice
  | keyring : CacheChoice
  deriving Repr, DecidableEq

/-- `make_cache(mode)` from `token_cache/__init__.py`: `None` for
`"none"`, forced backends for `"file"` and `"keyring"`, and for any
other mode (the `auto` default) the keyring backend exactly when the
probe finds it usable, else the file backend. -/
def make_cache (mode : String) (probe : Option String) : Option CacheChoice :=
  if mode = "none" then none
  else if mode = "file" then some .file
  else if mode = "keyring" then some .keyring
  else if keyringUsable probe then some .keyring
  else some .file

/-! ## The `RequestsAuthSession.session` property (`requests/auth_session.py`)

The provider state is authlib's `oauth_session.token` (`None` before any
fetch, the fetched token dict afterwards).  The property body is

    if not self.token:
        with self._lock:
            token = self.oauth_session.fetch_access_token(url=self.token_url)
            self._update_token(token)
    return self.oauth_session.session

`fetch_access_token` performs the network exchange and stores its result
as the session token; `_update_token` only logs.  `sessionProperty`
returns the token held after the call together with whether a network
fetch was performed. -/

/-- Python truthiness of the held token: `None` is falsy, a fetched
token dict is truthy. -/
def tokenTruthy : Option Token → Bool
  | none => false
  | some _ => true

/-- One sequential execution of the `session` property body:
`fetched` is the token the network exchange would return. -/
def sessionProperty (held : Option Token) (fetched : Token) :
    Option Token × Bool :=
  if tokenTruthy held then (held, false)
  else (some fetched, true)

/-! ## Interleaved executions of the `session` property (`auth_session.py`)

Each caller thread runs the property body: read `self.token` (program
counter `check`), and when falsy acquire the lock (`acquire`), perform
the network fetch while holding it (`fetching`), then release
(`unlock`).  `fetchCount` counts completed network fetches.  A scheduler
step picks a thread index; a thread blocked on the lock, finished, or
out of range leaves the state unchanged. -/

inductive PC : Type where
  | check : PC
  | acquire : PC
  | fetching : PC
  | unlock : PC
  | done : PC
  deriving Repr, DecidableEq

structure CState where
  token : Option Token
  lockHeld : Option Nat
  threads : List PC
  fetchCount : Nat
  deriving Repr, DecidableEq

/-- The token returned by thread `i`'s `fetch_access_token` call. -/
def freshToken (i : Nat) : Token :=
  { access_token := "token" ++ toString i, expires_at := some 3600 }

/-- One scheduler step: thread `i` executes its next statement. -/
def step (s : CState) (i : Nat) : CState :=
  match s.threads[i]? with
  | none => s
  | some pc =>
    match pc with
    | .check =>
        if tokenTruthy s.token then { s with threads := s.threads.set i .done }
        else { s with threads := s.threads.set i .acquire }
    | .acquire =>
        match s.lockHeld with
        | some _ => s
        | none =>
            { s with lockHeld := some i, threads := s.threads.set i .fetching }
    | .fetching =>
        { s with
          token := some (freshToken i)
          fetchCount := s.fetchCount + 1
          threads := s.threads.set i .unlock }
    | .unlock =>
        { s with lockHeld := none, threads := s.threads.set i .done }
    | .done => s

/-- Run a schedule (list of thread indices) from a state. -/
def run (s : CState) : List Nat → CState
  | [] => s
  | i :: rest => run (step s i) rest

/-- A fresh provider with `n` concurrent callers of the `session`
property: no token, lock free, no fetches yet. -/
def initState (n : Nat) : CState :=
  { token := none, lockHeld := none
    threads := List.replicate n .check, fetchCount := 0 }

/-- A thread is in its lock-protected critical section. -/
def inCS : PC → Bool
  | .fetching => true
  | .unlock => true
  | _ => false

/-- A thread may still perform a fetch. -/
def canFetch : PC → Bool
  | .check => true
  | .acquire => true
  | .fetching => true
  | _ => false

/-- Lock-ownership invariant: any thread inside the critical section is
the one holding the lock. -/
def LockInv (s : CState) : Prop :=
  ∀ i pc, s.threads[i]? = some pc → inCS pc = true → s.lockHeld = some i

/-! ## The 401 handler (`requests/bearer_auth.py`)

`KognicBearerAuth._handle_401` is straight-line code over an abstract
provider (`invalidate_token`, `ensure_token` as state transitions on a
provider-state type) and the transport (`send conn req`, the
`r.connection.send(prep)` call).  The returned event list instruments
the calls the handler makes, in order. -/

structure PReq where
  headers : List (String × String)
  deriving Repr, DecidableEq

structure PResp where
  status : Nat
  connId : Nat
  request : PReq
  history : List Nat
  tag : Nat
  deriving Repr, DecidableEq

inductive AuthEvent : Type where
  | invalidateTok : AuthEvent
  | ensureTok : AuthEvent
  | sendReq : Nat → List (String × String) → AuthEvent
  deriving Repr, DecidableEq, BEq

/-- Abstract token provider as seen by the handler: the two methods it
calls, as transitions on an opaque provider-state type. -/
structure TokenProviderM (σ : Type) where
  invalidate_token : σ → σ
  ensure_token : σ → σ × Token

/-- `KognicBearerAuth._handle_401(r)`: pass a non-401 through; on 401
invalidate, ensure a fresh token, copy the original request with the
`Authorization` header replaced, resend once on the response's own
connection, append the original response to the resend's history and
return the resend. -/
def handle_401 {σ : Type} (P : TokenProviderM σ) (send : Nat → PReq → PResp)
    (st : σ) (r : PResp) : σ × PResp × List AuthEvent :=
  if r.status ≠ 401 then (st, r, [])
  else
    let st1 := P.invalidate_token st
    let st2tok := P.ensure_token st1
    let prep : PReq :=
      { headers :=
          insertKV "Authorization" ("Bearer " ++ st2tok.2.access_token)
            r.request.headers }
    let r2 := send r.connId prep
    (st2tok.1, { r2 with history := r2.history ++ [r.tag] },
      [.invalidateTok, .ensureTok, .sendReq r.connId prep.headers])

/-! ## The shared provider pool (`requests/base_client.py`)

Provider instances are identified by allocation order (`nextId`); the
module-level `_provider_pool` maps `(client_id, auth_host,
auth_token_endpoint)` to the provider instance.  The claims under study
hold the first looked-up provider strongly for the whole window, so no
weak-reference eviction happens between the lookups and the
`WeakValueDictionary` behaves as the plain map modelled here.
`ResolveOutcome` is the result of `resolve_credentials(auth)`: it raised,
or returned an optional id and secret. -/

inductive ResolveOutcome : Type where
  | raises : ResolveOutcome
  | ok : Option String → Option String → ResolveOutcome
  deriving Repr, DecidableEq

/-- Python truthiness of an `Optional[str]` credential: `None` and the
empty string are falsy. -/
def credTruthy : Option String → Bool
  | none => false
  | some s => !decide (s = "")

structure PoolState where
  pool : List ((String × String × String) × Nat)
  nextId : Nat
  deriving Repr, DecidableEq

/-- `_get_shared_provider(auth, auth_host, auth_token_endpoint)`:
resolution errors are swallowed as `(None, None)`; without a truthy
client_id and client_secret a fresh, never-registered provider is
returned; otherwise the pool is consulted under the pool lock and a new
provider is constructed and registered on a miss. -/
def get_shared_provider (res : ResolveOutcome)
    (auth_host auth_token_endpoint : String) (st : PoolState) :
    Nat × PoolState :=
  let creds : Option String × Option String :=
    match res with
    | .raises => (none, none)
    | .ok cid csec => (cid, csec)
  if !credTruthy creds.1 || !credTruthy creds.2 then
    (st.nextId, { st with nextId := st.nextId + 1 })
  else
    let key := (creds.1.getD "", auth_host, auth_token_endpoint)
    match lookupKV key st.pool with
    | some pid => (pid, st)
    | none =>
        (st.nextId,
          { pool := insertKV key st.nextId st.pool, nextId := st.nextId + 1 })

/-- `resolve_credentials` outcomes on which `_get_shared_provider` takes
the unpooled branch: a raise, or a missing/empty id or secret. -/
def unsharedRes : ResolveOutcome → Bool
  | .raises => true
  | .ok cid csec => !credTruthy cid || !credTruthy csec

/-- Well-formedness of a pool state, true of every state reachable from
the empty pool: registered provider ids are below the allocation counter
and no id is registered under two keys. -/
def PoolWF (st : PoolState) : Prop :=
  (∀ k pid, lookupKV k st.pool = some pid → pid < st.nextId) ∧
  (∀ k k2 pid, lookupKV k st.pool = some pid →
    lookupKV k2 st.pool = some pid → k = k2)

/-! ## Invariants of the interleaved `session` executions -/

theorem countP_set {α : Type} (p : α → Bool) (l : List α) (i : Nat) (a b : α)
    (h : l[i]? = some b) :
    (l.set i a).countP p + (if p b then 1 else 0)
      = l.countP p + (if p a then 1 else 0) := by
  induction l generalizing i with
  | nil => simp at h
  | cons hd tl ih =>
      cases i with
      | zero =>
          simp only [List.getElem?_cons_zero, Option.some.injEq] at h
          subst h
          simp only [List.set_cons_zero, List.countP_cons]
          omega
      | succ m =>
          simp only [List.getElem?_cons_succ] at h
          have := ih m h
          simp only [List.set_cons_succ, List.countP_cons]
          omega

/-- Fetch potential: completed fetches plus callers that may still
fetch.  Never increased by a scheduler step. -/
def phi (s : CState) : Nat :=
  s.fetchCount + s.threads.countP canFetch

theorem phi_step (s : CState) (i : Nat) : phi (step s i) ≤ phi s := by
  unfold step
  cases hget : s.threads[i]? with
  | none => exact Nat.le_refl _
  | some pc =>
      cases pc with
      | check =>
          have hc1 := countP_set canFetch s.threads i .done .check hget
          have hc2 := countP_set canFetch s.threads i .acquire .check hget
          by_cases ht : tokenTruthy s.token = true
          · simp only [ht, if_true, phi]
            simp [canFetch] at hc1
            omega
          · simp only [Bool.not_eq_true] at ht
            simp only [ht, Bool.false_eq_true, if_false, phi]
            simp [canFetch] at hc2
            omega
      | acquire =>
          cases hl : s.lockHeld with
          | some j => exact Nat.le_refl _
          | none =>
              have hc := countP_set canFetch s.threads i .fetching .acquire hget
              simp only [phi]
              simp [canFetch] at hc
              omega
      | fetching =>
          have hc := countP_set canFetch s.threads i .unlock .fetching hget
          simp only [phi]
          simp [canFetch] at hc
          omega
      | unlock =>
          have hc := countP_set canFetch s.threads i .done .unlock hget
          simp only [phi]
          simp [canFetch] at hc
          omega
      | done => exact Nat.le_refl _

theorem phi_run (sched : List Nat) (s : CState) : phi (run s sched) ≤ phi s := by
  induction sched generalizing s with
  | nil => exact Nat.le_refl _
  | cons i rest ih => exact Nat.le_trans (ih (step s i)) (phi_step s i)

theorem countP_replicate_canFetch (n : Nat) :
    (List.replicate n PC.check).countP canFetch = n := by
  induction n with
  | zero => simp
  | succ m ih => simp [List.replicate_succ, List.countP_cons, ih, canFetch]

theorem lockInv_step (s : CState) (i : Nat) (h : LockInv s) :
    LockInv (step s i) := by
  unfold step
  cases hget : s.threads[i]? with
  | none => exact h
  | some pc =>
      have hlen : i < s.threads.length := (List.getElem?_eq_some.mp hget).1
      cases pc with
      | check =>
          by_cases ht : tokenTruthy s.token = true
          · simp only [ht, if_true]
            intro j pc' hj hcs
            by_cases hji : j = i
            · subst hji
              rw [List.getElem?_set_self hlen] at hj
              cases hj
              simp [inCS] at hcs
            · rw [List.getElem?_set_ne (fun hc => hji hc.symm)] at hj
              exact h j pc' hj hcs
          · simp only [Bool.not_eq_true] at ht
            simp only [ht, Bool.false_eq_true, if_false]
            intro j pc' hj hcs
            by_cases hji : j = i
            · subst hji
              rw [List.getElem?_set_self hlen] at hj
              cases hj
              simp [inCS] at hcs
            · rw [List.getElem?_set_ne (fun hc => hji hc.symm)] at hj
              exact h j pc' hj hcs
      | acquire =>
          cases hl : s.lockHeld with
          | some k => exact h
          | none =>
              intro j pc' hj hcs
              by_cases hji : j = i
              · subst hji; rfl
              · rw [List.getElem?_set_ne (fun hc => hji hc.symm)] at hj
                have := h j pc' hj hcs
                rw [hl] at this
                cases this
      | fetching =>
          intro j pc' hj hcs
          by_cases hji : j = i
          · subst hji
            exact h _ .fetching hget rfl
          · rw [List.getElem?_set_ne (fun hc => hji hc.symm)] at hj
            exact h j pc' hj hcs
      | unlock =>
          intro j pc' hj hcs
          by_cases hji : j = i
          · subst hji
            rw [List.getElem?_set_self hlen] at hj
            cases hj
            simp [inCS] at hcs
          · rw [List.getElem?_set_ne (fun hc => hji hc.symm)] at hj
            have h1 := h j pc' hj hcs
            have h2 := h i .unlock hget rfl
            rw [h2] at h1
            cases h1
            exact absurd rfl hji
      | done => exact h

theorem lockInv_run (sched : List Nat) (s : CState) (h : LockInv s) :
    LockInv (run s sched) := by
  induction sched generalizing s with
  | nil => exact h
  | cons i rest ih => exact ih (step s i) (lockInv_step s i h)

theorem lockInv_initState (n : Nat) : LockInv (initState n) := by
  intro i pc hget hcs
  simp only [initState] at hget
  rcases Nat.lt_or_ge i n with hi | hi
  · rw [List.getElem?_replicate, if_pos hi] at hget
    cases hget
    simp [inCS] at hcs
  · rw [List.getElem?_replicate, if_neg (Nat.not_lt_of_ge hi)] at hget
    cases hget

/-! ## Claims about the validity rule and the caches -/

/-- C4: `is_valid` returns true iff the token has an `expires_at` with
`now < expires_at - EXPIRY_MARGIN_SECONDS`; a token without `expires_at`
is always invalid, `expires_at = now + 29` and `now + 30` are invalid,
and `expires_at = now + 31` is valid. -/
theorem c4_is_valid_margin (tok : Token) (now : Int) (a : String) :
    (is_valid tok now = true ↔
      ∃ e, tok.expires_at = some e ∧ now < e - EXPIRY_MARGIN_SECONDS) ∧
    is_valid { access_token := a, expires_at := none } now = false ∧
    is_valid { access_token := a, expires_at := some (now + 29) } now = false ∧
    is_valid { access_token := a, expires_at := some (now + 31) } now = true ∧
    is_valid { access_token := a, expires_at := some (now + 30) } now = false := by
  refine ⟨?_, ?_, ?_, ?_, ?_⟩
  · cases h : tok.expires_at with
    | none => simp [is_valid, h]
    | some e => simp [is_valid, h]
  · rfl
  · simp [is_valid, EXPIRY_MARGIN_SECONDS]
  · simp [is_valid, EXPIRY_MARGIN_SECONDS]
    omega
  · simp [is_valid, EXPIRY_MARGIN_SECONDS]

/-- C9: the cache key `make_key` is not injective: the distinct
credential identities `("a", "b:c")` and `("a:b", "c")` share the key
`"a:b:c"`, and a token saved by the file cache under the first identity
is read back by a load under the second. -/
theorem c9_make_key_not_injective :
    make_key "a" "b:c" = make_key "a:b" "c" ∧
    (("a", "b:c") : String × String) ≠ ("a:b", "c") ∧
    FileTokenCache.load
      (FileTokenCache.save
        { content := .absent, readFails := false, writeFails := false }
        "a" "b:c" { access_token := "tok", expires_at := some 100 })
      "a:b" "c" 0
      = some { access_token := "tok", expires_at := some 100 } := by
  refine ⟨by decide, by decide, by decide⟩

/-- C8: `make_cache` returns no cache for mode `"none"`, the file cache
for `"file"`, the keyring cache for `"keyring"`, and for `"auto"` the
keyring cache exactly when the probe succeeds: the keyring module
imported, `get_keyring()` returned a backend, and the backend type name
does not contain `"fail"` case-insensitively. -/
theorem c8_make_cache_selection (probe : Option String) (name : String) :
    make_cache "none" probe = none ∧
    make_cache "file" probe = some .file ∧
    make_cache "keyring" probe = some .keyring ∧
    make_cache "auto" probe =
      (if keyringUsable probe then some .keyring else some .file) ∧
    keyringUsable none = false ∧
    keyringUsable (some name) = !strContains name.toLower "fail" := by
  refine ⟨rfl, rfl, rfl, rfl, rfl, rfl⟩

/-- C6: a `save` through the file cache followed by a `load` for the
same `(auth_server, client_id)` against the same cache file (the
instances are stateless, so a fresh instance reading the persisted file
behaves identically) returns exactly the saved token, provided the token
is still valid at load time and the file reads and writes succeed. -/
theorem c6_file_cache_round_trip (s : FileStore) (server id : String)
    (tok : Token) (now : Int)
    (hrd : s.readFails = false) (hwr : s.writeFails = false)
    (hval : is_valid tok now = true) :
    FileTokenCache.load (FileTokenCache.save s server id tok) server id now
      = some tok := by
  unfold FileTokenCache.save
  rw [if_neg (by simp [hwr])]
  unfold FileTokenCache.load FileTokenCache.load_all
  simp only [hrd, Bool.false_eq_true, if_false]
  rw [lookupKV_insert_self]
  simp [hval]

theorem c6_file_cache_round_trip_witness :
    ({ content := .absent, readFails := false, writeFails := false } : FileStore).readFails = false ∧
    is_valid { access_token := "t", expires_at := some 100 } 0 = true ∧
    FileTokenCache.load
      (FileTokenCache.save
        { content := .absent, readFails := false, writeFails := false }
        "srv" "cid" { access_token := "t", expires_at := some 100 })
      "srv" "cid" 0
      = some { access_token := "t", expires_at := some 100 } :=
  ⟨rfl, by decide,
    c6_file_cache_round_trip
      { content := .absent, readFails := false, writeFails := false }
      "srv" "cid" { access_token := "t", expires_at := some 100 } 0
      rfl rfl (by decide)⟩

theorem eraseKV_of_lookup_none {α β : Type} [DecidableEq α]
    (k : α) (l : List (α × β)) (h : lookupKV k l = none) :
    eraseKV k l = l := by
  induction l with
  | nil => rfl
  | cons hd tl ih =>
      obtain ⟨k2, v2⟩ := hd
      by_cases hk : k2 = k
      · simp [lookupKV, hk] at h
      · simp only [lookupKV, hk, if_false] at h
        simp [eraseKV, hk, ih h]

/-- C7: the cache operations fail open for both backends (all the
modelled operations are total functions, mirroring the catch-all
`except` blocks around every backend access): `load` answers `None` on a
missing key, a corrupt file, a failing read, an unparsable stored value,
an invalid (expired or `expires_at`-less) token, or an unusable keyring;
`save` and `clear` return with the store untouched on any backend
failure; and `clear` of an absent key is a no-op. -/
theorem c7_cache_fail_open (s : FileStore) (k : KrStore)
    (server id : String) (now : Int) (tok : Token) :
    (lookupKV (make_key server id) (FileTokenCache.load_all s) = none →
      FileTokenCache.load s server id now = none) ∧
    (s.content = .corrupt → FileTokenCache.load s server id now = none) ∧
    (s.readFails = true → FileTokenCache.load s server id now = none) ∧
    (∀ t, lookupKV (make_key server id) (FileTokenCache.load_all s) = some t →
      is_valid t now = false → FileTokenCache.load s server id now = none) ∧
    (s.writeFails = true → FileTokenCache.save s server id tok = s) ∧
    (s.writeFails = true → FileTokenCache.clear s server id = s) ∧
    (lookupKV (make_key server id) (FileTokenCache.load_all s) = none →
      FileTokenCache.clear s server id = s) ∧
    (k.usable = false → KeyringTokenCache.load k server id now = none) ∧
    (k.getFails = true → KeyringTokenCache.load k server id now = none) ∧
    (lookupKV (make_key server id) k.entries = none →
      KeyringTokenCache.load k server id now = none) ∧
    (lookupKV (make_key server id) k.entries = some .corrupt →
      KeyringTokenCache.load k server id now = none) ∧
    (∀ t, lookupKV (make_key server id) k.entries = some (.good t) →
      is_valid t now = false → KeyringTokenCache.load k server id now = none) ∧
    (k.usable = false → KeyringTokenCache.save k server id tok = k) ∧
    (k.setFails = true → KeyringTokenCache.save k server id tok = k) ∧
    (k.usable = false → KeyringTokenCache.clear k server id = k) ∧
    (k.delFails = true → KeyringTokenCache.clear k server id = k) ∧
    (lookupKV (make_key server id) k.entries = none →
      KeyringTokenCache.clear k server id = k) := by
  refine ⟨?_, ?_, ?_, ?_, ?_, ?_, ?_, ?_, ?_, ?_, ?_, ?_, ?_, ?_, ?_, ?_, ?_⟩
  · intro h
    unfold FileTokenCache.load
    rw [h]
  · intro h
    unfold FileTokenCache.load FileTokenCache.load_all
    rw [h]
    cases hr : s.readFails <;> simp [lookupKV]
  · intro h
    unfold FileTokenCache.load FileTokenCache.load_all
    simp [h, lookupKV]
  · intro t ht hv
    unfold FileTokenCache.load
    rw [ht]
    simp [hv]
  · intro h
    unfold FileTokenCache.save
    rw [if_pos h]
  · intro h
    unfold FileTokenCache.clear
    cases hl : lookupKV (make_key server id) (FileTokenCache.load_all s) with
    | none => simp [hl]
    | some t => simp [hl, h]
  · intro h
    unfold FileTokenCache.clear
    simp [h]
  · intro h
    unfold KeyringTokenCache.load
    simp [h]
  · intro h
    unfold KeyringTokenCache.load
    cases hu : k.usable <;> simp [h]
  · intro h
    unfold KeyringTokenCache.load
    cases hu : k.usable <;> simp [h]
  · intro h
    unfold KeyringTokenCache.load
    cases hu : k.usable <;> cases hg : k.getFails <;> simp [h, hg]
  · intro t ht hv
    unfold KeyringTokenCache.load
    cases hu : k.usable <;> cases hg : k.getFails <;> simp [ht, hg, hv]
  · intro h
    unfold KeyringTokenCache.save
    simp [h]
  · intro h
    unfold KeyringTokenCache.save
    cases hu : k.usable <;> simp [h]
  · intro h
    unfold KeyringTokenCache.clear
    simp [h]
  · intro h
    unfold KeyringTokenCache.clear
    cases hu : k.usable <;> simp [h]
  · intro h
    obtain ⟨u, e, g, sf, d⟩ := k
    simp only at h
    unfold KeyringTokenCache.clear
    cases u <;> cases d <;> simp [eraseKV_of_lookup_none _ _ h]

theorem c7_cache_fail_open_witness :
    FileTokenCache.load
      { content := .corrupt, readFails := false, writeFails := false }
      "srv" "cid" 0 = none ∧
    FileTokenCache.clear
      { content := .absent, readFails := false, writeFails := false }
      "srv" "cid"
      = { content := .absent, readFails := false, writeFails := false } ∧
    KeyringTokenCache.load
      { usable := false, entries := [], getFails := false,
        setFails := false, delFails := false }
      "srv" "cid" 0 = none ∧
    KeyringTokenCache.clear
      { usable := true, entries := [], getFails := false,
        setFails := false, delFails := false }
      "srv" "cid"
      = { usable := true, entries := [], getFails := false,
          setFails := false, delFails := false } := by
  have h1 := c7_cache_fail_open
    { content := .corrupt, readFails := false, writeFails := false }
    { usable := false, entries := [], getFails := false,
      setFails := false, delFails := false }
    "srv" "cid" 0 { access_token := "t", expires_at := none }
  have h2 := c7_cache_fail_open
    { content := .absent, readFails := false, writeFails := false }
    { usable := true, entries := [], getFails := false,
      setFails := false, delFails := false }
    "srv" "cid" 0 { access_token := "t", expires_at := none }
  exact ⟨h1.2.1 rfl, h2.2.2.2.2.2.2.1 rfl, h1.2.2.2.2.2.2.2.1 rfl,
    h2.2.2.2.2.2.2.2.2.2.2.2.2.2.2.2.2 rfl⟩

/-! ## Claims about the `session` property and the 401 handler -/

/-- C1 counterexample: with an in-memory token whose `expires_at` is 70
and the clock at 100, the token is held (truthy) but violates
`now < expires_at - EXPIRY_MARGIN_SECONDS`; the `session` property
performs no fetch and leaves that token in place, so after the call the
provider's token still violates the margin condition and no fresh fetch
replaced it. -/
theorem c1_counterexample :
    tokenTruthy (some { access_token := "old", expires_at := some 70 }) = true ∧
    is_valid { access_token := "old", expires_at := some 70 } 100 = false ∧
    sessionProperty (some { access_token := "old", expires_at := some 70 })
        { access_token := "new", expires_at := some 4000 }
      = (some { access_token := "old", expires_at := some 70 }, false) := by
  refine ⟨rfl, by decide, by decide⟩

/-- C1 (amended): the `session` property fetches exactly when no token
is held; a held token is reused unchanged with no `expires_at` or
expiry-margin check and no re-check after taking the lock, so the
post-call token need not satisfy the margin condition. -/
theorem c1_session_fetch_iff_no_token (held : Option Token) (fetched : Token) :
    sessionProperty held fetched =
      (if held.isNone then some fetched else held, held.isNone) := by
  cases held <;> rfl

/-- C3 counterexample: two concurrent callers of the `session` property
on a fresh provider, interleaved so that both read the empty token
before either fetches, perform two network fetches (serialized by the
lock, but the token condition is not re-checked after acquiring it), not
exactly one. -/
theorem c3_counterexample :
    (run (initState 2) [0, 1, 0, 0, 0, 1, 1, 1]).fetchCount = 2 ∧
    ¬(run (initState 2) [0, 1, 0, 0, 0, 1, 1, 1]).fetchCount = 1 := by
  refine ⟨by decide, by decide⟩

/-- C3 (amended): in every interleaving of `n` concurrent callers of the
`session` property on a fresh provider, no two network fetches run
concurrently (at most one thread is mid-fetch in any reachable state,
because the fetch happens under the lock), and at most one fetch per
caller — hence at most `n` in total — is performed; but more than one
fetch can occur, so the single-fetch guarantee of the claim does not
hold. -/
theorem c3_fetches_serialized (n : Nat) (sched : List Nat) :
    (∀ (i j : Nat), (run (initState n) sched).threads[i]? = some PC.fetching →
      (run (initState n) sched).threads[j]? = some PC.fetching → i = j) ∧
    (run (initState n) sched).fetchCount ≤ n := by
  constructor
  · intro i j hi hj
    have hinv := lockInv_run sched (initState n) (lockInv_initState n)
    have h1 := hinv i .fetching hi rfl
    have h2 := hinv j .fetching hj rfl
    rw [h1] at h2
    exact (Option.some.injEq _ _).mp h2
  · have hrun := phi_run sched (initState n)
    have hinit : phi (initState n) = n := by
      simp [phi, initState, countP_replicate_canFetch]
    rw [hinit] at hrun
    have : (run (initState n) sched).fetchCount ≤ phi (run (initState n) sched) :=
      Nat.le_add_right _ _
    omega

theorem c3_fetches_serialized_witness :
    (0 : Nat) = 0 ∧ (run (initState 2) [0, 0]).fetchCount ≤ 2 :=
  have h := c3_fetches_serialized 2 [0, 0]
  ⟨h.1 0 0 (by decide) (by decide), h.2⟩

/-- C2: `_handle_401` returns a non-401 response unchanged without
touching the provider; on a 401 it emits exactly the event sequence
invalidate, ensure, send — one `invalidate_token`, then one
`ensure_token` on the invalidated provider state, then exactly one
resend of a copy of the original request whose `Authorization` header
carries the freshly ensured access token, over the response's own
connection — and returns that single resend's response (with the
original response appended to its history and its status, 401 or not,
untouched: a second 401 is not retried). -/
theorem c2_handle_401 (σ : Type) (P : TokenProviderM σ)
    (send : Nat → PReq → PResp) (st : σ) (r : PResp) :
    (r.status ≠ 401 → handle_401 P send st r = (st, r, [])) ∧
    (r.status = 401 →
      (let st1 := P.invalidate_token st
       let st2tok := P.ensure_token st1
       let prep : PReq :=
         { headers :=
             insertKV "Authorization" ("Bearer " ++ st2tok.2.access_token)
               r.request.headers }
       let out := handle_401 P send st r
       out.2.2 = [.invalidateTok, .ensureTok, .sendReq r.connId prep.headers] ∧
       out.2.2.countP (fun e => match e with
         | .invalidateTok => true | _ => false) = 1 ∧
       out.2.2.countP (fun e => match e with
         | .ensureTok => true | _ => false) = 1 ∧
       out.2.2.countP (fun e => match e with
         | .sendReq _ _ => true | _ => false) = 1 ∧
       lookupKV "Authorization" prep.headers
         = some ("Bearer " ++ st2tok.2.access_token) ∧
       out.2.1 = { send r.connId prep with
                   history := (send r.connId prep).history ++ [r.tag] } ∧
       out.2.1.status = (send r.connId prep).status ∧
       out.1 = st2tok.1)) := by
  constructor
  · intro h
    unfold handle_401
    rw [if_pos h]
  · intro h
    unfold handle_401
    rw [if_neg (by simp [h])]
    refine ⟨rfl, ?_, ?_, ?_, lookupKV_insert_self _ _ _, rfl, rfl, rfl⟩ <;>
      simp [List.countP_cons, List.countP_nil]

theorem c2_handle_401_witness :
    (handle_401
        { invalidate_token := fun n => n + 1,
          ensure_token := fun n => (n, { access_token := "fresh", expires_at := none }) }
        (fun c q => { status := 200, connId := c, request := q, history := [], tag := 9 })
        (0 : Nat)
        { status := 401, connId := 5,
          request := { headers := [("Authorization", "Bearer old")] },
          history := [], tag := 3 }).2.2
      = [.invalidateTok, .ensureTok,
         .sendReq 5 [("Authorization", "Bearer fresh")]] ∧
    (handle_401
        { invalidate_token := fun n => n + 1,
          ensure_token := fun n => (n, { access_token := "fresh", expires_at := none }) }
        (fun c q => { status := 200, connId := c, request := q, history := [], tag := 9 })
        (0 : Nat)
        { status := 401, connId := 5,
          request := { headers := [("Authorization", "Bearer old")] },
          history := [], tag := 3 }).2.1.status = 200 :=
  have h := (c2_handle_401 Nat
    { invalidate_token := fun n => n + 1,
      ensure_token := fun n => (n, { access_token := "fresh", expires_at := none }) }
    (fun c q => { status := 200, connId := c, request := q, history := [], tag := 9 })
    0
    { status := 401, connId := 5,
      request := { headers := [("Authorization", "Bearer old")] },
      history := [], tag := 3 }).2 rfl
  ⟨h.1, h.2.2.2.2.2.2.1⟩

/-! ## Claims about the shared provider pool -/

theorem get_shared_provider_unshared (res : ResolveOutcome)
    (host ep : String) (st : PoolState) (h : unsharedRes res = true) :
    get_shared_provider res host ep st
      = (st.nextId, { st with nextId := st.nextId + 1 }) := by
  cases res with
  | raises => rfl
  | ok cid csec =>
      unfold get_shared_provider
      rw [if_pos (by simpa [unsharedRes] using h)]

/-- C5 counterexample: both lookups resolve to client_id `"id"`, host
`"h"` and endpoint `"e"` — the same triple with every component
non-empty — yet because the resolved client_secret is empty the pool is
bypassed and the two lookups return distinct provider instances (ids 0
and 1). -/
theorem c5_counterexample :
    (get_shared_provider (.ok (some "id") (some "")) "h" "e"
      { pool := [], nextId := 0 }).1 = 0 ∧
    (get_shared_provider (.ok (some "id") (some "")) "h" "e"
      (get_shared_provider (.ok (some "id") (some "")) "h" "e"
        { pool := [], nextId := 0 }).2).1 = 1 ∧
    (0 : Nat) ≠ 1 := by
  refine ⟨by decide, by decide, by decide⟩

/-- C5 (amended): for two lookups whose credentials resolve to the same
non-empty client_id AND a non-empty client_secret, with equal auth_host
and auth_token_endpoint (the secret is not part of the pool key, but its
truthiness is required to enter the pooled branch), the second lookup —
performed while the first provider is still registered/alive — returns
the same provider instance; two lookups resolving to different non-empty
client_ids (with non-empty secrets) return distinct instances. -/
theorem c5_pool_sharing (st : PoolState) (hWF : PoolWF st)
    (cid sec1 sec2 host ep : String)
    (hcid : cid ≠ "") (hs1 : sec1 ≠ "") (hs2 : sec2 ≠ "") :
    ((get_shared_provider (.ok (some cid) (some sec1)) host ep st).1 =
      (get_shared_provider (.ok (some cid) (some sec2)) host ep
        (get_shared_provider (.ok (some cid) (some sec1)) host ep st).2).1) ∧
    (∀ (cid2 sec3 host2 ep2 : String), cid2 ≠ "" → sec3 ≠ "" →
      cid ≠ cid2 →
      (get_shared_provider (.ok (some cid) (some sec1)) host ep st).1 ≠
      (get_shared_provider (.ok (some cid2) (some sec3)) host2 ep2
        (get_shared_provider (.ok (some cid) (some sec1)) host ep st).2).1) := by
  have hctr1 : credTruthy (some cid) = true := by simp [credTruthy, hcid]
  have hstr1 : credTruthy (some sec1) = true := by simp [credTruthy, hs1]
  have hstr2 : credTruthy (some sec2) = true := by simp [credTruthy, hs2]
  constructor
  · unfold get_shared_provider
    rw [if_neg (by simp [hctr1, hstr1]), if_neg (by simp [hctr1, hstr2])]
    simp only [Option.getD]
    cases hlk : lookupKV (cid, host, ep) st.pool with
    | some pid => simp [hlk]
    | none =>
        simp only [hlk]
        rw [lookupKV_insert_self]
  · intro cid2 sec3 host2 ep2 hcid2 hs3 hne
    have hctr2 : credTruthy (some cid2) = true := by simp [credTruthy, hcid2]
    have hstr3 : credTruthy (some sec3) = true := by simp [credTruthy, hs3]
    have hkey : ((cid2, host2, ep2) : String × String × String)
        ≠ (cid, host, ep) := by
      intro hc
      exact hne (congrArg Prod.fst hc).symm
    unfold get_shared_provider
    rw [if_neg (by simp [hctr1, hstr1]), if_neg (by simp [hctr2, hstr3])]
    simp only [Option.getD]
    cases hlk1 : lookupKV (cid, host, ep) st.pool with
    | some pid1 =>
        simp only [hlk1]
        cases hlk2 : lookupKV (cid2, host2, ep2) st.pool with
        | some pid2 =>
            simp only [hlk2]
            intro hc
            have hkk := hWF.2 (cid, host, ep) (cid2, host2, ep2) pid1 hlk1
              (by rw [hc]; exact hlk2)
            exact hne (congrArg Prod.fst hkk)
        | none =>
            simp only [hlk2]
            have := hWF.1 _ _ hlk1
            omega
    | none =>
        simp only [hlk1]
        rw [lookupKV_insert_ne _ _ _ _ hkey]
        cases hlk2 : lookupKV (cid2, host2, ep2) st.pool with
        | some pid2 =>
            simp only [hlk2]
            have := hWF.1 _ _ hlk2
            omega
        | none =>
            simp only [hlk2]
            omega

theorem c5_pool_sharing_witness :
    ((get_shared_provider (.ok (some "a") (some "s1")) "h" "e"
        { pool := [], nextId := 0 }).1 =
      (get_shared_provider (.ok (some "a") (some "s2")) "h" "e"
        (get_shared_provider (.ok (some "a") (some "s1")) "h" "e"
          { pool := [], nextId := 0 }).2).1) ∧
    ((get_shared_provider (.ok (some "a") (some "s1")) "h" "e"
        { pool := [], nextId := 0 }).1 ≠
      (get_shared_provider (.ok (some "b") (some "s3")) "h2" "e2"
        (get_shared_provider (.ok (some "a") (some "s1")) "h" "e"
          { pool := [], nextId := 0 }).2).1) :=
  have h := c5_pool_sharing { pool := [], nextId := 0 }
    ⟨fun _ _ hl => (nomatch hl), fun _ _ _ hl => (nomatch hl)⟩
    "a" "s1" "s2" "h" "e" (by decide) (by decide) (by decide)
  ⟨h.1, h.2 "b" "s3" "h2" "e2" (by decide) (by decide) (by decide)⟩

/-- C10: when credential resolution raises or yields a missing/empty
client_id or client_secret, `_get_shared_provider` swallows the failure
and returns a freshly constructed provider: the pool is left untouched,
the returned provider is not (and never becomes) registered in it, and a
second such lookup returns a distinct instance; the lookup itself is a
total function, so no resolution exception escapes it. -/
theorem c10_unresolved_creds_unpooled (res res2 : ResolveOutcome)
    (host ep host2 ep2 : String) (st : PoolState)
    (h : unsharedRes res = true) (h2 : unsharedRes res2 = true)
    (hWF : PoolWF st) :
    (get_shared_provider res host ep st).2.pool = st.pool ∧
    (get_shared_provider res host ep st).1 = st.nextId ∧
    (∀ k, lookupKV k st.pool ≠ some (get_shared_provider res host ep st).1) ∧
    (get_shared_provider res2 host2 ep2
        (get_shared_provider res host ep st).2).1 ≠
      (get_shared_provider res host ep st).1 := by
  rw [get_shared_provider_unshared res host ep st h]
  dsimp only
  rw [get_shared_provider_unshared res2 host2 ep2 _ h2]
  dsimp only
  refine ⟨rfl, rfl, ?_, by omega⟩
  intro k hc
  have := hWF.1 k _ hc
  omega

theorem c10_unresolved_creds_unpooled_witness :
    (get_shared_provider .raises "h" "e" { pool := [], nextId := 0 }).2.pool
      = ([] : List ((String × String × String) × Nat)) ∧
    (get_shared_provider (.ok (some "id") none) "h2" "e2"
        (get_shared_provider .raises "h" "e" { pool := [], nextId := 0 }).2).1 ≠
      (get_shared_provider .raises "h" "e" { pool := [], nextId := 0 }).1 :=
  have h := c10_unresolved_creds_unpooled .raises (.ok (some "id") none)
    "h" "e" "h2" "e2" { pool := [], nextId := 0 } rfl rfl
    ⟨fun _ _ hl => (nomatch hl), fun _ _ _ hl => (nomatch hl)⟩
  ⟨h.1, h.2.2.2⟩
